import Mathlib

/-!
Verification of the rich-text-to-Markdown renderer of DCE-DB (`fxn.py`).

The renderer `rich_text_to_markdown` walks a list of Notion-style rich-text
spans and concatenates one Markdown fragment per span.  Strings are modelled
by Lean `String` (a packed `List Char`), and the per-span transformation is
embedded character-list by character-list from the Python source.
-/

/-- The backtick character (Markdown code marker). -/
def btick : Char := Char.ofNat 96

/-- Characters stripped by Python's argument-less `str.lstrip` / `str.rstrip`
(the Unicode set for which `str.isspace` holds). -/
def pyIsSpace (c : Char) : Bool :=
  let n := c.toNat
  (0x09 ≤ n && n ≤ 0x0D) || n == 0x20 || (0x1C ≤ n && n ≤ 0x1F) ||
  n == 0x85 || n == 0xA0 || n == 0x1680 || (0x2000 ≤ n && n ≤ 0x200A) ||
  n == 0x2028 || n == 0x2029 || n == 0x202F || n == 0x205F || n == 0x3000

/-- `replaceChar c r l` replaces every occurrence of the character `c` in `l`
by the character sequence `r`; this is Python's `str.replace` for a
single-character pattern. -/
def replaceChar (c : Char) (r : List Char) : List Char → List Char
  | [] => []
  | x :: xs => if x = c then r ++ replaceChar c r xs else x :: replaceChar c r xs

/-- Python's `content.endswith("  \n")`: the last three characters are
space, space, newline. -/
def endsWithHardBreak (l : List Char) : Bool :=
  match l.reverse with
  | '\n' :: ' ' :: ' ' :: _ => true
  | _ => false

/-- Python's `content.lstrip()`. -/
def lstripPy (l : List Char) : List Char := l.dropWhile pyIsSpace

/-- Python's `content.rstrip()`. -/
def rstripPy (l : List Char) : List Char := (l.reverse.dropWhile pyIsSpace).reverse

/-- Python's `content[:-3]`. -/
def dropLast3 (l : List Char) : List Char := (l.reverse.drop 3).reverse

/-- The fence line `"\n```\n"` used around multiline code content. -/
def fenceSeq : List Char := ['\n', btick, btick, btick, '\n']

/-- One Notion rich-text span: a `text` span carrying its content and the four
boolean annotation flags, an `equation` span carrying its expression, or a
span of any other `type` string (e.g. a mention), which the renderer's
`if`/`elif` chain passes over. -/
inductive RichTextSpan where
  | text (content : String) (bold italic strikethrough code : Bool)
  | equation (expression : String)
  | other (type : String)
deriving DecidableEq

/-- The body of the `text` branch of `rich_text_to_markdown`, embedded from
`fxn.py` lines 60–107: escape `>`, then either wrap as code (fenced when a
newline is present, inline backticks otherwise) or convert newlines to hard
breaks, peel boundary whitespace when a style flag is set, apply the
bold/italic/strikethrough wraps in that order, and re-attach the peeled
whitespace. -/
def render_text_content (raw : List Char) (bold italic strikethrough code : Bool) :
    List Char :=
  let content := replaceChar '>' ['\\', '>'] raw
  if code then
    if content.contains '\n' then
      fenceSeq ++ content ++ fenceSeq
    else
      btick :: content ++ [btick]
  else
    let content := replaceChar '\n' [' ', ' ', '\n'] content
    let ps :=
      if bold || italic || strikethrough then
        let p1 :=
          if content.head? = some ' ' then ((([' '] : List Char)), lstripPy content)
          else (([] : List Char), content)
        let p2 :=
          if p1.2.getLast? = some ' ' then ((([' '] : List Char)), rstripPy p1.2)
          else (([] : List Char), p1.2)
        let p3 :=
          if endsWithHardBreak p2.2 then (([' ', ' ', '\n'] : List Char), dropLast3 p2.2)
          else (p2.1, p2.2)
        (p1.1, p3.1, p3.2)
      else (([] : List Char), ([] : List Char), content)
    let content := ps.2.2
    let content := if bold then ('*' :: '*' :: content) ++ ['*', '*'] else content
    let content := if italic then ('*' :: content) ++ ['*'] else content
    let content := if strikethrough then ('~' :: '~' :: content) ++ ['~', '~'] else content
    ps.1 ++ content ++ ps.2.1

/-- The Markdown fragment one span contributes: the `text` branch, the
`equation` branch (`" $ <expression> $ "`), or the empty string for any other
span type. -/
def renderSpan : RichTextSpan → String
  | .text c b i s cd => ⟨render_text_content c.data b i s cd⟩
  | .equation e => " $ " ++ e ++ " $ "
  | .other _ => ""

/-- `rich_text_to_markdown` from `fxn.py`: fold over the span list,
appending each span's fragment to the accumulated Markdown string. -/
def rich_text_to_markdown (l : List RichTextSpan) : String :=
  l.foldl (fun acc s => acc ++ renderSpan s) ""

/-- The `content` field of a `text` span, `none` for any other span. -/
def plainPart : RichTextSpan → Option String
  | .text c _ _ _ _ => some c
  | _ => none

/-- Modelled from the spec: the source under `src/` has no plain-text
extraction function; `renderPlainText` is described only in the
specification (§4.1), which says it concatenates only the literal `content`
field of spans whose kind is `text`, ignoring all annotations, with equation
spans contributing no text. -/
def renderPlainText (l : List RichTextSpan) : String :=
  l.foldl (fun acc s => acc ++ (plainPart s).getD "") ""

/-- `>`-escaping, named for use in claim statements: every `>` becomes `\>`. -/
def escGt (l : List Char) : List Char := replaceChar '>' ['\\', '>'] l

/-- Hard-break conversion, named for use in claim statements: every newline
becomes the two-space-plus-newline sequence. -/
def hardBreaks (l : List Char) : List Char := replaceChar '\n' [' ', ' ', '\n'] l

/-- Claim-side description of the whitespace peeled off in front of the style
markers: a single space exactly when the processed content starts with a
space. -/
def peelPfx (l : List Char) : List Char :=
  if l.head? = some ' ' then [' '] else []

/-- Claim-side description of the content left between the style markers:
leading whitespace is stripped when the content starts with a space; then
trailing whitespace is stripped when it ends with a space, or the trailing
hard-break sequence is removed when it ends with one. -/
def peelBody (l : List Char) : List Char :=
  let l1 := if l.head? = some ' ' then lstripPy l else l
  if l1.getLast? = some ' ' then rstripPy l1
  else if endsWithHardBreak l1 then dropLast3 l1
  else l1

/-- Claim-side description of the whitespace re-attached after the style
markers: a single space when the (lead-stripped) content ends with a space,
the hard-break sequence when it ends with one, nothing otherwise. -/
def peelSfx (l : List Char) : List Char :=
  let l1 := if l.head? = some ' ' then lstripPy l else l
  if l1.getLast? = some ' ' then [' ']
  else if endsWithHardBreak l1 then [' ', ' ', '\n']
  else []

/-- The bold wrap: surround with `**` when the flag is set. -/
def boldWrap (b : Bool) (l : List Char) : List Char :=
  if b then ('*' :: '*' :: l) ++ ['*', '*'] else l

/-- The italic wrap: surround with `*` when the flag is set. -/
def italWrap (i : Bool) (l : List Char) : List Char :=
  if i then ('*' :: l) ++ ['*'] else l

/-- The strikethrough wrap: surround with `~~` when the flag is set. -/
def strikeWrap (s : Bool) (l : List Char) : List Char :=
  if s then ('~' :: '~' :: l) ++ ['~', '~'] else l

/-- The four boolean annotation flags of a raw span's `annotations`
dictionary; an absent key reads as false. -/
structure Ann where
  bold : Bool
  italic : Bool
  strikethrough : Bool
  code : Bool
deriving DecidableEq

/-- The all-false flags Python's `.get` defaults produce for a missing
`annotations` dictionary. -/
def defaultAnn : Ann := ⟨false, false, false, false⟩

/-- A raw span as the Python code receives it: a dictionary whose fields may
be missing.  `type` models `text_obj["type"]`, `textContent` models
`text_obj["text"]["content"]`, `ann` models `text_obj.get("annotations", {})`
(absent dictionary reads as all-false flags), and `eqExpr` models
`text_obj["equation"]["expression"]`.  A `none` field on a path the code
indexes with `[...]` models a `KeyError`. -/
structure RawSpan where
  type : Option String
  textContent : Option String
  ann : Option Ann
  eqExpr : Option String
deriving DecidableEq

/-- The fragment one raw span contributes: `none` models an uncaught
`KeyError` raised by the subscript lookups; spans whose `type` is neither
`"text"` nor `"equation"` fall through the `if`/`elif` chain and contribute
the empty string. -/
def renderRawSpan (s : RawSpan) : Option String :=
  match s.type with
  | none => none
  | some t =>
    if t = "text" then
      match s.textContent with
      | none => none
      | some c =>
        let a := s.ann.getD defaultAnn
        some ⟨render_text_content c.data a.bold a.italic a.strikethrough a.code⟩
    else if t = "equation" then
      match s.eqExpr with
      | none => none
      | some e => some (" $ " ++ e ++ " $ ")
    else some ""

/-- `rich_text_to_markdown` over raw spans: the loop raises (returns `none`)
as soon as one span's lookups raise, and otherwise concatenates the
fragments left to right. -/
def rich_text_to_markdown_raw : List RawSpan → Option String
  | [] => some ""
  | s :: rest =>
    match renderRawSpan s, rich_text_to_markdown_raw rest with
    | some f, some r => some (f ++ r)
    | _, _ => none

/-- The well-typed input domain the spec declares: every span is a text span
with a content string present, or an equation span with an expression string
present. -/
def WellTypedRaw (l : List RawSpan) : Prop :=
  ∀ s ∈ l, (s.type = some "text" ∧ s.textContent.isSome = true) ∨
    (s.type = some "equation" ∧ s.eqExpr.isSome = true)

theorem foldl_strAppend {α : Type} (g : α → String) (l : List α) (acc : String) :
    l.foldl (fun a x => a ++ g x) acc = acc ++ l.foldl (fun a x => a ++ g x) "" := by
  induction l generalizing acc with
  | nil => simp
  | cons x xs ih =>
    simp only [List.foldl_cons]
    rw [ih (acc ++ g x), ih ("" ++ g x), String.empty_append, String.append_assoc]

theorem mem_nl_escGt (l : List Char) :
    '\n' ∈ replaceChar '>' ['\\', '>'] l ↔ '\n' ∈ l := by
  induction l with
  | nil => simp [replaceChar]
  | cons x xs ih =>
    by_cases hx : x = '>'
    · subst hx
      simp [replaceChar, ih]
    · simp [replaceChar, hx, ih]

theorem contains_nl_escGt (l : List Char) :
    (replaceChar '>' ['\\', '>'] l).contains '\n' = l.contains '\n' := by
  simp [List.contains, List.elem_eq_mem, mem_nl_escGt]

theorem endsWithHardBreak_rstrip (l : List Char) :
    endsWithHardBreak (rstripPy l) = false := by
  unfold endsWithHardBreak rstripPy
  rw [List.reverse_reverse]
  rcases h : l.reverse.dropWhile pyIsSpace with _ | ⟨x, xs⟩
  · rfl
  · have hx : pyIsSpace x = false := by
      have hh := List.head?_dropWhile_not pyIsSpace l.reverse
      rw [h] at hh
      simpa using hh
    have hxn : x ≠ '\n' := by
      intro e
      subst e
      exact absurd hx (by decide)
    split
    · next heq =>
      injection heq with h1 _
      exact absurd h1 hxn
    · rfl

theorem rtm_single (s : RichTextSpan) :
    rich_text_to_markdown [s] = renderSpan s := by
  simp [rich_text_to_markdown]

theorem renderPlainText_cons (s : RichTextSpan) (rest : List RichTextSpan) :
    renderPlainText (s :: rest) = (plainPart s).getD "" ++ renderPlainText rest := by
  simp only [renderPlainText, List.foldl_cons]
  rw [foldl_strAppend (fun t => (plainPart t).getD "") rest]
  simp

/-- C1: a text span with all four annotation flags false renders as its
content with every `>` escaped to `\>` and every newline converted to the
two-space-plus-newline hard-break sequence, and nothing else changed. -/
theorem c1_unannotated_text (c : String) :
    rich_text_to_markdown [.text c false false false false] =
      String.mk (hardBreaks (escGt c.data)) := by
  rw [rtm_single]
  show String.mk (render_text_content c.data false false false false) = _
  unfold render_text_content escGt hardBreaks
  simp

/-- C2 counterexample: for the code span with content `">"`, the renderer
escapes the `>` before wrapping, so the output is a backtick, a backslash, a
`>`, and a backtick — not the raw content wrapped in backticks as the claim
states. -/
theorem c2_code_counterexample :
    rich_text_to_markdown [.text ">" false false false true] = "`\\>`" ∧
    rich_text_to_markdown [.text ">" false false false true] ≠ "`>`" := by
  decide

/-- C2 as amended: a code span renders its `>`-escaped content wrapped in
single backticks when the content has no newline, and as a fenced block
(newline, three backticks, newline, escaped content, newline, three
backticks, newline) when it has one; the bold, italic and strikethrough
flags have no effect. -/
theorem c2_code_span_amended (c : String) (b i s : Bool) :
    rich_text_to_markdown [.text c b i s true] =
      if c.data.contains '\n' then String.mk (fenceSeq ++ escGt c.data ++ fenceSeq)
      else String.mk (btick :: escGt c.data ++ [btick]) := by
  rw [rtm_single]
  show String.mk (render_text_content c.data b i s true) = _
  by_cases hmem : '\n' ∈ c.data
  · simp [render_text_content, escGt, mem_nl_escGt, hmem]
  · simp [render_text_content, escGt, mem_nl_escGt, hmem]

/-- C5: an equation span renders as a space, a dollar sign, a space, the
literal expression, a space, a dollar sign and a space, with no escaping and
no annotation processing; in particular `E=mc^2` yields `" $ E=mc^2 $ "`. -/
theorem c5_equation_span :
    (∀ e : String, rich_text_to_markdown [.equation e] = " $ " ++ e ++ " $ ") ∧
    rich_text_to_markdown [.equation "E=mc^2"] = " $ E=mc^2 $ " := by
  constructor
  · intro e
    rw [rtm_single]
    rfl
  · decide

/-- C6: `renderPlainText` returns the concatenation of the content fields of
exactly the text spans, ignoring annotations, with equation spans
contributing nothing; on `[text "A", equation "x", text "B"]` it returns
`"AB"`. -/
theorem c6_plain_text_extraction :
    (∀ d : List RichTextSpan,
      renderPlainText d = String.join (d.filterMap plainPart)) ∧
    renderPlainText [.text "A" false false false false, .equation "x",
      .text "B" false false false false] = "AB" := by
  constructor
  · intro d
    induction d with
    | nil => rfl
    | cons s rest ih =>
      rw [renderPlainText_cons, ih, List.filterMap_cons]
      cases hs : plainPart s with
      | none => simp
      | some c =>
        apply String.ext
        simp
  · decide

/-- C7: rendering is deterministic — equal input span sequences produce equal
Markdown output; as a Lean function of its argument alone, the embedded
renderer reads and writes no state outside the input. -/
theorem c7_deterministic (d1 d2 : List RichTextSpan) (h : d1 = d2) :
    rich_text_to_markdown d1 = rich_text_to_markdown d2 := by
  rw [h]

theorem c7_deterministic_witness :
    [RichTextSpan.equation "E"] = [RichTextSpan.equation "E"] ∧
    rich_text_to_markdown [RichTextSpan.equation "E"] =
      rich_text_to_markdown [RichTextSpan.equation "E"] :=
  ⟨rfl, c7_deterministic [RichTextSpan.equation "E"] [RichTextSpan.equation "E"] rfl⟩

/-- C10: the renderer is a concatenation homomorphism — rendering the
concatenation of two documents yields the concatenation of their renderings,
so the output is the left-to-right concatenation of per-span fragments. -/
theorem c10_concat_homomorphism (d1 d2 : List RichTextSpan) :
    rich_text_to_markdown (d1 ++ d2) =
      rich_text_to_markdown d1 ++ rich_text_to_markdown d2 := by
  unfold rich_text_to_markdown
  rw [List.foldl_append]
  exact foldl_strAppend renderSpan d2 (List.foldl (fun acc s => acc ++ renderSpan s) "" d1)

/-- C3 counterexample: bold content with two leading spaces renders with a
single leading space — `lstrip` removes the whole whitespace run but only a
one-space prefix is re-attached, so the content's whitespace is not
preserved. -/
theorem c3_whitespace_counterexample :
    rich_text_to_markdown [.text "  hi" true false false false] = " **hi**" ∧
    rich_text_to_markdown [.text "  hi" true false false false] ≠ "  **hi**" := by
  decide

/-- C3 as amended: when a style flag is set, if the processed content starts
with a space its whole leading whitespace run is stripped and a single space
is re-attached before the markers; if it ends with a space its trailing
whitespace run is stripped and a single space is re-attached after the
markers; otherwise a trailing hard-break sequence is moved outside the
markers.  Boundary whitespace is thus collapsed to at most one space per
side, not preserved; for bold with content `" hi "` the output is
`" **hi** "`. -/
theorem c3_whitespace_amended (c : String) (b i s : Bool) (h : (b || i || s) = true) :
    rich_text_to_markdown [.text c b i s false] =
      String.mk (peelPfx (hardBreaks (escGt c.data)) ++
        strikeWrap s (italWrap i (boldWrap b (peelBody (hardBreaks (escGt c.data))))) ++
        peelSfx (hardBreaks (escGt c.data))) := by
  rw [rtm_single]
  show String.mk (render_text_content c.data b i s false) = _
  by_cases h1 : (replaceChar '\n' [' ', ' ', '\n']
      (replaceChar '>' ['\\', '>'] c.data)).head? = some ' '
  · by_cases h2 : (lstripPy (replaceChar '\n' [' ', ' ', '\n']
        (replaceChar '>' ['\\', '>'] c.data))).getLast? = some ' '
    · simp [render_text_content, peelPfx, peelBody, peelSfx, boldWrap, italWrap,
        strikeWrap, escGt, hardBreaks, h, h1, h2, endsWithHardBreak_rstrip]
    · by_cases h3 : endsWithHardBreak (lstripPy (replaceChar '\n' [' ', ' ', '\n']
          (replaceChar '>' ['\\', '>'] c.data))) = true
      · simp [render_text_content, peelPfx, peelBody, peelSfx, boldWrap, italWrap,
          strikeWrap, escGt, hardBreaks, h, h1, h2, h3]
      · simp [render_text_content, peelPfx, peelBody, peelSfx, boldWrap, italWrap,
          strikeWrap, escGt, hardBreaks, h, h1, h2, h3]
  · by_cases h2 : (replaceChar '\n' [' ', ' ', '\n']
        (replaceChar '>' ['\\', '>'] c.data)).getLast? = some ' '
    · simp [render_text_content, peelPfx, peelBody, peelSfx, boldWrap, italWrap,
        strikeWrap, escGt, hardBreaks, h, h1, h2, endsWithHardBreak_rstrip]
    · by_cases h3 : endsWithHardBreak (replaceChar '\n' [' ', ' ', '\n']
          (replaceChar '>' ['\\', '>'] c.data)) = true
      · simp [render_text_content, peelPfx, peelBody, peelSfx, boldWrap, italWrap,
          strikeWrap, escGt, hardBreaks, h, h1, h2, h3]
      · simp [render_text_content, peelPfx, peelBody, peelSfx, boldWrap, italWrap,
          strikeWrap, escGt, hardBreaks, h, h1, h2, h3]

theorem c3_whitespace_amended_witness :
    ((true || false || false) = true) ∧
    rich_text_to_markdown [.text " hi " true false false false] = " **hi** " := by
  refine ⟨rfl, ?_⟩
  rw [c3_whitespace_amended " hi " true false false rfl]
  decide

/-- C4 counterexample: with bold and strikethrough both set on content `"x"`
the output is `"~~**x**~~"` — strikethrough outermost and bold innermost —
not `"**~~x~~**"` as the claim's "bold outermost" reading requires. -/
theorem c4_nesting_counterexample :
    rich_text_to_markdown [.text "x" true false true false] = "~~**x**~~" ∧
    rich_text_to_markdown [.text "x" true false true false] ≠ "**~~x~~**" := by
  decide

/-- C4 as amended: the style markers are applied in the processing order
bold, then italic, then strikethrough, each wrapping outside the previous
result, so strikethrough is outermost and bold innermost when several flags
are set; for bold+italic on `"x"` the output is `"***x***"`. -/
theorem c4_nesting_amended (c : String) (b i s : Bool)
    (h1 : (hardBreaks (escGt c.data)).head? ≠ some ' ')
    (h2 : (hardBreaks (escGt c.data)).getLast? ≠ some ' ')
    (h3 : endsWithHardBreak (hardBreaks (escGt c.data)) = false) :
    rich_text_to_markdown [.text c b i s false] =
      String.mk (strikeWrap s (italWrap i (boldWrap b (hardBreaks (escGt c.data))))) := by
  rw [rtm_single]
  show String.mk (render_text_content c.data b i s false) = _
  unfold escGt hardBreaks at h1 h2 h3
  cases b <;> cases i <;> cases s <;>
    simp [render_text_content, escGt, hardBreaks, boldWrap, italWrap, strikeWrap, h1, h2, h3]

theorem c4_nesting_amended_witness :
    rich_text_to_markdown [.text "x" true true false false] = "***x***" := by
  rw [c4_nesting_amended "x" true true false (by decide) (by decide) (by decide)]
  decide

/-- C8: on the declared well-typed input domain — every span a text span
with its content string present or an equation span with its expression
string present — the renderer's dictionary lookups cannot raise, so it
always returns a string. -/
theorem c8_total (l : List RawSpan) (h : WellTypedRaw l) :
    ∃ out, rich_text_to_markdown_raw l = some out := by
  induction l with
  | nil => exact ⟨"", rfl⟩
  | cons sp rest ih =>
    obtain ⟨r, hr⟩ := ih (fun x hx => h x (List.mem_cons_of_mem _ hx))
    have hsp := h sp (List.mem_cons_self _ _)
    have hf : (renderRawSpan sp).isSome = true := by
      rcases hsp with ⟨ht, hc⟩ | ⟨ht, he⟩
      · obtain ⟨cc, hcc⟩ := Option.isSome_iff_exists.mp hc
        unfold renderRawSpan
        rw [ht, hcc]
        rfl
      · obtain ⟨ee, hee⟩ := Option.isSome_iff_exists.mp he
        unfold renderRawSpan
        rw [ht, hee]
        rfl
    obtain ⟨f, hff⟩ := Option.isSome_iff_exists.mp hf
    refine ⟨f ++ r, ?_⟩
    unfold rich_text_to_markdown_raw
    rw [hff, hr]

theorem c8_total_witness :
    ∃ out, rich_text_to_markdown_raw
      [⟨some "text", some "hi", some ⟨true, false, false, false⟩, none⟩,
       ⟨some "equation", none, none, some "E=mc^2"⟩] = some out :=
  c8_total _ (by unfold WellTypedRaw; decide)

/-- C9: a raw span whose `type` is neither `"text"` nor `"equation"` falls
through the `if`/`elif` chain and contributes the empty string rather than
raising, leaving the other spans' fragments unchanged. -/
theorem c9_unknown_kind (l1 l2 : List RawSpan) (sp : RawSpan) (k : String)
    (h1 : sp.type = some k) (h2 : k ≠ "text") (h3 : k ≠ "equation") :
    renderRawSpan sp = some "" ∧
    rich_text_to_markdown_raw (l1 ++ sp :: l2) = rich_text_to_markdown_raw (l1 ++ l2) := by
  have hs : renderRawSpan sp = some "" := by
    simp [renderRawSpan, h1, h2, h3]
  refine ⟨hs, ?_⟩
  induction l1 with
  | nil =>
    simp only [List.nil_append]
    cases hl : rich_text_to_markdown_raw l2 with
    | none => simp [rich_text_to_markdown_raw, hs, hl]
    | some r => simp [rich_text_to_markdown_raw, hs, hl]
  | cons x xs ih =>
    simp only [List.cons_append]
    simp [rich_text_to_markdown_raw, ih]

theorem c9_unknown_kind_witness :
    renderRawSpan ⟨some "mention", none, none, none⟩ = some "" ∧
    rich_text_to_markdown_raw
      ([⟨some "text", some "A", none, none⟩] ++ ⟨some "mention", none, none, none⟩ ::
        [⟨some "equation", none, none, some "x"⟩]) =
      rich_text_to_markdown_raw
        ([⟨some "text", some "A", none, none⟩] ++ [⟨some "equation", none, none, some "x"⟩]) :=
  c9_unknown_kind _ _ _ "mention" rfl (by decide) (by decide)
